import Mathlib

/-!
Verification of the gonote SimpleNote client (package main: cmd.go,
config.go, and the client file holding simpleNoteClient).

The embedding below translates the pure logic of the client into Lean:

* `Note` / `NoteList` mirror the JSON structures of the client file.
  The Go struct stores `ModifyDate` as a string and the sort comparator
  applies `GetSimpleNoteTimestamp` (utils file embedded in src/README.md)
  to it; the embedding carries the already-converted integer count of
  seconds in `modifyTimestamp`.
* Network effects are made explicit: an index server is a function from a
  continuation mark to an optional `NoteList` (`none` covering transport
  errors, non-200 codes and decode failures, which getAllNotes treats
  alike), and the dispatcher `makeRequest` consumes a script of
  (status, body) responses, one per attempt.
* Go panics / out-of-range slice accesses are modelled as `none` results.
-/

namespace GoNote

/-- Note mirrors the Go struct Note (client file, lines 43-53): content,
tags, systemtags, deleted (a Go int), key, and the modification instant.
modifyTimestamp carries GetSimpleNoteTimestamp(ModifyDate), the integer
count of seconds the utils file embedded in src/README.md (lines 130-134)
extracts from the date string (truncate at the first dot, then Atoi); the
embedding stores the already-converted integer, which is all the sort
comparator of Notes consumes. -/
structure Note where
  content : String
  tags : List String
  systemTags : List String
  deleted : Int
  key : String
  modifyTimestamp : Int
deriving DecidableEq, Repr

/-- NoteList mirrors the Go struct NoteList (lines 58-62): the JSON object
returned by the index endpoint, with count, data and continuation mark. -/
structure NoteList where
  count : Int
  data : List Note
  mark : String
deriving DecidableEq, Repr

/-- CheckIn mirrors CheckIn(needle, haystack) of the utils file embedded
in src/README.md (lines 137-144): a linear scan over haystack returning
true as soon as an element equals needle and false otherwise — that is,
membership of the tag in the tag list. -/
def CheckIn (t : String) (tags : List String) : Bool :=
  tags.contains t

/-- keepNote is the per-entry filter of getAllNotes (lines 363-378): an
entry is skipped when Flags["deleted"] is not "true" and its deleted field
is 1; otherwise, when Params.Tags is non-empty the entry is kept exactly
when some filter tag passes CheckIn against the tags of the entry, and when
Params.Tags is empty the entry is kept. -/
def keepNote (flagsDeleted : String) (paramTags : List String) (n : Note) : Bool :=
  if flagsDeleted ≠ "true" ∧ n.deleted = 1 then
    false
  else if 0 < paramTags.length then
    paramTags.any fun t => CheckIn t n.tags
  else
    true

/-- filterPage applies keepNote to the data of one index page in order,
matching the append loop of getAllNotes (lines 363-378). -/
def filterPage (flagsDeleted : String) (paramTags : List String)
    (data : List Note) : List Note :=
  data.filter (keepNote flagsDeleted paramTags)

/-- IndexReq records the query parameters one index call sends: the value
of the length parameter, and the mark parameter when it is set (getAllNotes
lines 348-351 build qparams with length always present and mark only when
the mark argument is non-empty). -/
structure IndexReq where
  length : String
  mark : Option String
deriving DecidableEq, Repr

/-- IndexServer models the remote index endpoint as seen through
makeRequest: a function from the mark sent to the parsed NoteList, with
none covering a transport error, a non-200 status, or a JSON decode
failure (getAllNotes treats all three as immediate failure). The strictly-advancing-marks server of the spec is a deterministic function of the mark,
which this captures. -/
def IndexServer : Type := String → Option NoteList

/-- getAllNotes embeds the recursive index fetcher (lines 347-388),
instrumented with the list of index requests it issues and supplied with
fuel because the Go recursion has no intrinsic bound. Results:
some (Except.ok notes) models a normal return, some (Except.error ())
models an error return, and none models fuel running out, i.e. the Go
call still recursing. Faithful details: the recursive call on line 381
passes the accumulated notes and the ORIGINAL mark argument (not l.Mark),
and line 385 appends the recursive result onto the accumulator again. -/
def getAllNotes (srv : IndexServer) (flagsDeleted : String)
    (paramTags : List String) :
    Nat → List Note → String → List IndexReq × Option (Except Unit (List Note))
  | 0, _, _ => ([], none)
  | fuel + 1, notes, mark =>
    let req : IndexReq := ⟨"100", if mark ≠ "" then some mark else none⟩
    match srv mark with
    | none => ([req], some (Except.error ()))
    | some l =>
      let notes := notes ++ filterPage flagsDeleted paramTags l.data
      if l.mark ≠ "" then
        match getAllNotes srv flagsDeleted paramTags fuel notes mark with
        | (reqs, none) => (req :: reqs, none)
        | (reqs, some (Except.error e)) => (req :: reqs, some (Except.error e))
        | (reqs, some (Except.ok newNotes)) =>
          (req :: reqs, some (Except.ok (notes ++ newNotes)))
      else
        ([req], some (Except.ok notes))

/-- noteA is a concrete summary living on the first index page. -/
def noteA : Note :=
  { content := "", tags := [], systemTags := [], deleted := 0
    key := "a000", modifyTimestamp := 1 }

/-- noteB is a concrete summary living on the second index page. -/
def noteB : Note :=
  { content := "", tags := [], systemTags := [], deleted := 0
    key := "b000", modifyTimestamp := 2 }

/-- twoPageServer is a concrete two-page index: the empty mark yields page
one (items [noteA], continuation mark "m1"), the mark "m1" yields page two
(items [noteB], no further mark). Its marks strictly advance, so the
pagination model of the spec is satisfied. -/
def twoPageServer : IndexServer := fun mark =>
  if mark = "" then some ⟨2, [noteA], "m1"⟩
  else if mark = "m1" then some ⟨2, [noteB], ""⟩
  else none

/-- GoMap models a Go map[string]string by its lookup function; inserting
a key overwrites any previous value at that key. -/
def GoMap : Type := String → Option String

/-- goMapSet is assignment m[k] = v on a Go map. -/
def goMapSet (m : GoMap) (k v : String) : GoMap :=
  fun x => if x = k then some v else m x

/-- goMapEmpty is the empty Go map. -/
def goMapEmpty : GoMap := fun _ => none

/-- parseAddrQuery embeds parseAddr (lines 414-429) at the level of the
final per-key query values: the map p is built with auth and email first,
then every caller-supplied parameter is inserted (overwriting on key
collision, as Go map assignment does). The caller map is given as an
association list naming an iteration order; Go map keys are unique, so
theorems assume distinct keys. The request URLs passed to makeRequest
carry no pre-existing query string, and the loop on lines 425-427 calls
vals.Add once per key of p, so the value a key has in the encoded URL is
exactly the lookup in p. -/
def parseAddrQuery (token email : String)
    (params : List (String × String)) : GoMap :=
  params.foldl (fun m kv => goMapSet m kv.1 kv.2)
    (goMapSet (goMapSet goMapEmpty "auth" token) "email" email)

/-- ReqResult is what makeRequest hands back to its caller: ok carries the
response body and status code (the Go triple with err = nil), authFailed
carries the error Authorize returned on the 401/403 path (the Go triple
with err set, returned before any retry). -/
inductive ReqResult where
  | ok (body : String) (code : Nat)
  | authFailed (e : String)
deriving DecidableEq, Repr

/-- makeRequest embeds the resilient dispatcher (lines 432-456) for one
logical request. Network nondeterminism is made explicit: responses lists
the (status, body) answer of each successive attempt of this same request,
and auths lists the outcome of each successive Authorize call (ok carries
the new token stored on line 410, error the auth failure). The function
returns the caller-visible result together with the session token after
the call; none models the script running out, i.e. the unbounded Go
recursion still retrying. Faithful order of checks: 403/401 first
(re-authorize, then retry the identical request), then 500/412 (blind
retry), otherwise return body and status as-is. -/
def makeRequest (token : String) :
    List (Nat × String) → List (Except String String) →
    Option (ReqResult × String)
  | [], _ => none
  | (code, body) :: rest, auths =>
    if code = 403 ∨ code = 401 then
      match auths with
      | [] => none
      | Except.error e :: _ => some (ReqResult.authFailed e, token)
      | Except.ok newToken :: authRest => makeRequest newToken rest authRest
    else if code = 500 ∨ code = 412 then
      makeRequest token rest auths
    else
      some (ReqResult.ok body code, token)

/-- digitsVal folds a non-empty run of decimal digits into a number,
failing on any non-digit; empty input fails. -/
def digitsVal : List Char → Option Nat
  | [] => none
  | cs =>
    cs.foldl
      (fun acc c =>
        match acc with
        | none => none
        | some v => if c.isDigit then some (v * 10 + (c.toNat - 48)) else none)
      (some 0)

/-- atoi models strconv.Atoi of Go on a 64-bit platform: an optional sign
followed by at least one decimal digit, rejected (error, here none) when
the value falls outside the int64 range — showNotes only distinguishes
success from error, so the clamped value Atoi reports with ErrRange is
irrelevant. -/
def atoi (s : String) : Option Int :=
  let signed : Option Int :=
    match s.toList with
    | '-' :: cs => (digitsVal cs).map fun v => -(v : Int)
    | '+' :: cs => (digitsVal cs).map fun v => (v : Int)
    | cs => (digitsVal cs).map fun v => (v : Int)
  match signed with
  | none => none
  | some v =>
    if v < -9223372036854775808 ∨ 9223372036854775808 ≤ v then none
    else some v

/-- sortNotes stands for sort.Sort(notes) with the Less of Notes (lines
462-464): the result is the input reordered ascending by modifyTimestamp.
The sort.Sort of Go guarantees exactly a sorted permutation (its concrete
algorithm lives outside the repository); the embedding realizes that
guarantee with an insertion sort. -/
def sortNotes (notes : List Note) : List Note :=
  List.insertionSort (fun a b => a.modifyTimestamp ≤ b.modifyTimestamp) notes

/-- showNotesCut embeds the truncation step of showNotes (lines 276-287):
unless Flags["n"] is the literal string "-1", compute n from Atoi (falling
back to the count of rendered records on parse error), clamp n down to
that count, and slice parsed[cut:] with cut = count - n. A Go slice
expression parsed[cut:] panics unless 0 <= cut <= len(parsed); the panic
is modelled as none. showNotesKept below embeds the whole of showNotes
(lines 264-290) at the level of which notes are rendered, in which order:
sort (line 265), drop notes with empty content (line 268), return early
when nothing remains (line 272), then cut. -/
def showNotesCut (flagN : String) (parsed : List Note) : Option (List Note) :=
  let n : Int :=
    match atoi flagN with
    | some v => v
    | none => (parsed.length : Int)
  let n : Int := if (parsed.length : Int) < n then (parsed.length : Int) else n
  let cut : Int := (parsed.length : Int) - n
  if 0 ≤ cut ∧ cut ≤ (parsed.length : Int) then
    some (parsed.drop cut.toNat)
  else
    none

/-- showNotesKept combines the sort, the empty-content filter, the early
empty-list return and the tail cut, rendering the kept notes in order. -/
def showNotesKept (flagN : String) (notes : List Note) : Option (List Note) :=
  if ((sortNotes notes).filter fun n => n.content ≠ "").length = 0 then
    some []
  else if flagN ≠ "-1" then
    showNotesCut flagN ((sortNotes notes).filter fun n => n.content ≠ "")
  else
    some ((sortNotes notes).filter fun n => n.content ≠ "")

/-- FetchEvent is one event observed by the select loop of listNotes
(lines 222-233): either a fetched note arriving on the channel, or the
timeout firing. -/
inductive FetchEvent where
  | arrival (n : Note)
  | timeout
deriving DecidableEq, Repr

/-- collectNotes embeds the collection loop of listNotes (lines 221-233)
over an explicit event trace: arrivals are appended to fullNotes and the
loop returns them all once their count reaches the batch size (rendering
via showNotes); a timeout event makes the whole call fail with the
timeout error, discarding the accumulator. none models a trace that ends
with the loop still blocked. -/
def collectNotes (target : Nat) :
    List FetchEvent → List Note → Option (Except Unit (List Note))
  | [], _ => none
  | FetchEvent.arrival n :: rest, fullNotes =>
    let fullNotes := fullNotes ++ [n]
    if fullNotes.length = target then some (Except.ok fullNotes)
    else collectNotes target rest fullNotes
  | FetchEvent.timeout :: _, _ => some (Except.error ())

/-- ApiRequest names the data-endpoint calls deleteNote can issue, in the
shape makeRequest receives them: a GET of a key (fetchNote), a POST of a
note body to a key (updateNote), or a hard DELETE of a key. -/
inductive ApiRequest where
  | get (key : String)
  | post (key : String) (body : Note)
  | del (key : String)
deriving DecidableEq, Repr

/-- updateNote embeds updateNote (lines 147-161): with an empty
Params.Key it returns an error before issuing any request; otherwise it
POSTs the note to the data endpoint under n.Key and fails when the
response status is not 200. Returns the requests issued and the error, if
any; updateCode is the status the server answers. -/
def updateNote (paramsKey : String) (n : Note) (updateCode : Nat) :
    List ApiRequest × Option String :=
  if paramsKey = "" then
    ([], some "Missing key parameter in request.")
  else if updateCode ≠ 200 then
    ([ApiRequest.post n.key n], some "Error when updating note")
  else
    ([ApiRequest.post n.key n], none)

/-- deleteNote embeds deleteNote (lines 179-201): fetch the note, set
Deleted = 1, write it back through updateNote, and only when that
succeeded and Flags["permanently"] is "true" issue the hard DELETE,
failing when its status is not 200. fetched is the note fetchNote
returns for Params.Key; updateCode and deleteCode are the statuses the
server answers the POST and the DELETE with. The pair returned is the
sequence of requests issued and the error, if any. -/
def deleteNote (paramsKey flagPermanently : String) (fetched : Note)
    (updateCode deleteCode : Nat) : List ApiRequest × Option String :=
  let note : Note := { fetched with deleted := 1 }
  let upd := updateNote paramsKey note updateCode
  let reqs := ApiRequest.get paramsKey :: upd.1
  match upd.2 with
  | some e => (reqs, some e)
  | none =>
    if flagPermanently = "true" then
      if deleteCode ≠ 200 then
        (reqs ++ [ApiRequest.del note.key], some "Simplenote request failed")
      else
        (reqs ++ [ApiRequest.del note.key], none)
    else
      (reqs, none)

/-- goMapSet stores the assigned value at the assigned key. -/
theorem goMapSet_self (m : GoMap) (k v : String) : goMapSet m k v k = some v := by
  simp [goMapSet]

/-- goMapSet leaves every other key unchanged. -/
theorem goMapSet_other (m : GoMap) (k k' v : String) (h : k ≠ k') :
    goMapSet m k' v k = m k := by
  simp [goMapSet, h]

/-- Inserting parameters whose keys avoid k leaves the value at k
unchanged. -/
theorem foldl_goMapSet_of_not_mem (ps : List (String × String)) (m : GoMap)
    (k : String) (h : k ∉ ps.map Prod.fst) :
    ps.foldl (fun m kv => goMapSet m kv.1 kv.2) m k = m k := by
  induction ps generalizing m with
  | nil => rfl
  | cons kv rest ih =>
    simp only [List.map_cons, List.mem_cons] at h
    push_neg at h
    rw [List.foldl_cons, ih _ h.2, goMapSet_other _ _ _ _ h.1]

/-- Inserting a parameter list with distinct keys makes the value at a
listed key the listed value, whatever the map held before. -/
theorem foldl_goMapSet_of_mem (ps : List (String × String)) (m : GoMap)
    (k v : String) (hnd : (ps.map Prod.fst).Nodup) (hmem : (k, v) ∈ ps) :
    ps.foldl (fun m kv => goMapSet m kv.1 kv.2) m k = some v := by
  induction ps generalizing m with
  | nil => cases hmem
  | cons kv rest ih =>
    rw [List.foldl_cons]
    simp only [List.map_cons, List.nodup_cons] at hnd
    rcases List.mem_cons.mp hmem with heq | hmem2
    · have hk : k ∉ rest.map Prod.fst := by
        rw [← heq] at hnd; exact hnd.1
      rw [foldl_goMapSet_of_not_mem _ _ _ hk, ← heq, goMapSet_self]
    · exact ih _ hnd.2 hmem2

/-- C3 counterexample: when the caller map carries the key auth with value
"CALLER" and the session token is "TOKEN", the value of auth in the final
request query is the caller value, not the token — contradicting the
claim that the authentication parameter wins the collision. -/
theorem parseAddr_auth_param_loses :
    parseAddrQuery "TOKEN" "u@example.com" [("auth", "CALLER")] "auth"
        = some "CALLER" ∧ ("CALLER" : String) ≠ "TOKEN" := by
  constructor
  · rfl
  · decide

/-- C3 (amended): parseAddr inserts the caller-supplied query parameters
into the map after the authentication parameters auth and email, so when a
caller key collides with an authentication key the caller value is the one
present in the final request URL. -/
theorem parseAddr_caller_param_wins (token email k v : String)
    (ps : List (String × String)) (hnd : (ps.map Prod.fst).Nodup)
    (hmem : (k, v) ∈ ps) :
    parseAddrQuery token email ps k = some v :=
  foldl_goMapSet_of_mem ps _ k v hnd hmem

/-- C3 witness: the amended theorem applied at a concrete collision on the
email authentication key. -/
theorem parseAddr_caller_param_wins_witness :
    ((([("email", "EV")] : List (String × String)).map Prod.fst).Nodup
        ∧ ("email", "EV") ∈ ([("email", "EV")] : List (String × String)))
    ∧ parseAddrQuery "TOKEN" "u@example.com" [("email", "EV")] "email"
        = some "EV" :=
  ⟨⟨by decide, by decide⟩,
    parseAddr_caller_param_wins "TOKEN" "u@example.com" "email" "EV"
      [("email", "EV")] (by decide) (by decide)⟩

/-- C5: getAllNotes keeps an index entry exactly when the deleted field of
the entry is not 1 or Flags["deleted"] is "true", and the tag filter is
empty or at least one filter tag occurs among the tags of the entry (a
single match suffices). -/
theorem keepNote_keeps_iff (fd : String) (pt : List String) (n : Note) :
    keepNote fd pt n = true ↔
      ((n.deleted ≠ 1 ∨ fd = "true") ∧ (pt = [] ∨ ∃ t ∈ pt, t ∈ n.tags)) := by
  simp only [keepNote, CheckIn]
  by_cases hd : fd ≠ "true" ∧ n.deleted = 1
  · rw [if_pos hd]
    simp only [Bool.false_eq_true, false_iff]
    rintro ⟨h1, _⟩
    rcases h1 with h1 | h1
    · exact h1 hd.2
    · exact hd.1 h1
  · rw [if_neg hd]
    push_neg at hd
    have hfirst : n.deleted ≠ 1 ∨ fd = "true" := by
      by_cases hf : fd = "true"
      · exact Or.inr hf
      · exact Or.inl (hd hf)
    by_cases hpt : 0 < pt.length
    · rw [if_pos hpt]
      have hne : pt ≠ [] := List.ne_nil_of_length_pos hpt
      simp only [List.any_eq_true, List.contains, List.elem_eq_mem,
        decide_eq_true_eq]
      constructor
      · rintro ⟨t, ht, htn⟩
        exact ⟨hfirst, Or.inr ⟨t, ht, htn⟩⟩
      · rintro ⟨_, hsec⟩
        cases hsec with
        | inl h => exact absurd h hne
        | inr h =>
          obtain ⟨t, ht, htt⟩ := h
          exact ⟨t, ht, htt⟩
    · rw [if_neg hpt]
      have hnil : pt = [] := by
        cases pt with
        | nil => rfl
        | cons a l => exact absurd (by simp) hpt
      simp only [true_iff]
      exact ⟨hfirst, Or.inl hnil⟩

/-- C4: on a 401 or 403 response makeRequest invokes Authorize; when
Authorize fails its error is propagated to the caller and the token is
unchanged; when Authorize yields a new token the identical request is
retried, a subsequent 200 response is returned to the caller, the session
token after the call is the newly issued one, and (when the issued token
differs from the old one) the token before and after the call differ. -/
theorem makeRequest_reauth_retry (token body0 b e newToken : String)
    (c : Nat) (rest : List (Nat × String))
    (auths : List (Except String String)) (hc : c = 401 ∨ c = 403) :
    makeRequest token ((c, body0) :: rest) (Except.error e :: auths)
        = some (ReqResult.authFailed e, token)
    ∧ makeRequest token ((c, body0) :: (200, b) :: rest)
        (Except.ok newToken :: auths)
        = some (ReqResult.ok b 200, newToken)
    ∧ (newToken ≠ token →
        (makeRequest token ((c, body0) :: (200, b) :: rest)
            (Except.ok newToken :: auths)).map Prod.snd ≠ some token) := by
  rcases hc with rfl | rfl <;>
    refine ⟨?_, ?_, ?_⟩ <;>
      simp [makeRequest]

/-- C4 witness: the re-authentication theorem applied to a concrete 401
response followed by a successful re-authorize and a 200. -/
theorem makeRequest_reauth_retry_witness :
    ((401 : Nat) = 401 ∨ (401 : Nat) = 403)
    ∧ makeRequest "oldTok" [(401, "denied"), (200, "payload")]
        [Except.ok "newTok"]
        = some (ReqResult.ok "payload" 200, "newTok") :=
  ⟨Or.inl rfl,
    (makeRequest_reauth_retry "oldTok" "denied" "payload" "authErr" "newTok"
      401 [] [] (Or.inl rfl)).2.1⟩

/-- Arrivals reaching the batch size make the collection loop return all
of them, appended to what was already collected. -/
theorem collectNotes_arrivals_complete (target : Nat) (arrivals : List Note) :
    ∀ (rest : List FetchEvent) (acc : List Note),
      acc.length + arrivals.length = target → 0 < arrivals.length →
      collectNotes target (arrivals.map FetchEvent.arrival ++ rest) acc
        = some (Except.ok (acc ++ arrivals)) := by
  induction arrivals with
  | nil => intro rest acc _ h0; cases h0
  | cons a tl ih =>
    intro rest acc hlen _
    rw [List.map_cons, List.cons_append, collectNotes]
    cases tl with
    | nil =>
      have hl : (acc ++ [a]).length = target := by
        simp at hlen ⊢; omega
      rw [if_pos hl]
    | cons b tl2 =>
      have hl : ¬(acc ++ [a]).length = target := by
        simp at hlen ⊢; omega
      rw [if_neg hl]
      rw [ih rest (acc ++ [a]) (by simp at hlen ⊢; omega) (by simp)]
      simp

/-- A timeout event arriving while fewer notes than the batch size have
been collected makes the loop fail with the timeout error, whatever came
in so far. -/
theorem collectNotes_timeout_first (target : Nat) (arrivals : List Note) :
    ∀ (rest : List FetchEvent) (acc : List Note),
      acc.length + arrivals.length < target →
      collectNotes target
          (arrivals.map FetchEvent.arrival ++ FetchEvent.timeout :: rest) acc
        = some (Except.error ()) := by
  induction arrivals with
  | nil => intro rest acc _; rfl
  | cons a tl ih =>
    intro rest acc hlen
    rw [List.map_cons, List.cons_append, collectNotes]
    have hl : ¬(acc ++ [a]).length = target := by
      simp at hlen ⊢; omega
    rw [if_neg hl]
    exact ih rest (acc ++ [a]) (by simp at hlen ⊢; omega)

/-- C9: for a batch of N summaries, when all N fetched notes arrive before
the deadline the collection loop of listNotes returns exactly those N
notes (success exactly when the collected count reaches N), and when the
timeout fires while fewer than N notes have been collected the loop
returns the timeout error, discarding every note collected so far. -/
theorem listNotes_batch_complete_or_timeout (summaries arrivals early : List Note)
    (rest : List FetchEvent)
    (hN : arrivals.length = summaries.length) (h0 : 0 < summaries.length)
    (hfew : early.length < summaries.length) :
    collectNotes summaries.length (arrivals.map FetchEvent.arrival ++ rest) []
        = some (Except.ok arrivals)
    ∧ collectNotes summaries.length
          (early.map FetchEvent.arrival ++ FetchEvent.timeout :: rest) []
        = some (Except.error ()) := by
  constructor
  · have h := collectNotes_arrivals_complete summaries.length arrivals rest []
      (by simpa using hN) (by omega)
    simpa using h
  · exact collectNotes_timeout_first summaries.length early rest []
      (by simpa using hfew)

/-- C9 witness: the batch theorem applied to a concrete pair of summaries,
with both bodies arriving in reversed order, and to a premature timeout. -/
theorem listNotes_batch_complete_or_timeout_witness :
    (([noteB, noteA] : List Note).length = ([noteA, noteB] : List Note).length
      ∧ 0 < ([noteA, noteB] : List Note).length
      ∧ ([noteA] : List Note).length < ([noteA, noteB] : List Note).length)
    ∧ collectNotes 2
        [FetchEvent.arrival noteB, FetchEvent.arrival noteA] []
        = some (Except.ok [noteB, noteA])
    ∧ collectNotes 2 [FetchEvent.arrival noteA, FetchEvent.timeout] []
        = some (Except.error ()) := by
  refine ⟨⟨rfl, by decide, by decide⟩, ?_, ?_⟩
  · have h := (listNotes_batch_complete_or_timeout [noteA, noteB]
      [noteB, noteA] [noteA] [] rfl (by decide) (by decide)).1
    simpa using h
  · have h := (listNotes_batch_complete_or_timeout [noteA, noteB]
      [noteB, noteA] [noteA] [] rfl (by decide) (by decide)).2
    simpa using h

/-- C10: deleteNote always first fetches the note and writes it back with
deleted set to 1 through a POST (the move to trash), whatever the flags
are; the hard DELETE on the data endpoint is issued exactly when
Flags["permanently"] equals "true" and the trash update succeeded, and it
comes after the POST in the request sequence. -/
theorem deleteNote_trash_then_hard (k fp : String) (fetched : Note)
    (uc dc : Nat) (hk : k ≠ "") :
    (deleteNote k fp fetched uc dc).1
        = [ApiRequest.get k,
            ApiRequest.post fetched.key { fetched with deleted := 1 }]
          ++ (if fp = "true" ∧ uc = 200
              then [ApiRequest.del fetched.key] else [])
    ∧ ApiRequest.post fetched.key { fetched with deleted := 1 }
        ∈ (deleteNote k fp fetched uc dc).1
    ∧ (ApiRequest.del fetched.key ∈ (deleteNote k fp fetched uc dc).1
        ↔ (fp = "true" ∧ uc = 200)) := by
  by_cases huc : uc = 200
  · by_cases hfp : fp = "true"
    · by_cases hdc : dc = 200 <;>
        simp [deleteNote, updateNote, hk, huc, hfp, hdc]
    · simp [deleteNote, updateNote, hk, huc, hfp]
  · simp [deleteNote, updateNote, hk, huc]

/-- C10 witness: the delete protocol theorem applied to a concrete key,
the permanently flag set, and a server answering 200 to both writes. -/
theorem deleteNote_trash_then_hard_witness :
    ("k123" : String) ≠ ""
    ∧ (deleteNote "k123" "true" noteA 200 200).1
        = [ApiRequest.get "k123",
            ApiRequest.post noteA.key { noteA with deleted := 1 },
            ApiRequest.del noteA.key] := by
  refine ⟨by decide, ?_⟩
  have h := (deleteNote_trash_then_hard "k123" "true" noteA 200 200
    (by decide)).1
  rw [h]
  decide

/-- noteW is a concrete summary tagged work and x, not deleted. -/
def noteW : Note :=
  { content := "w", tags := ["work", "x"], systemTags := [], deleted := 0
    key := "w000", modifyTimestamp := 7 }

/-- C5 witness: the filter theorem applied at a concrete entry — with
filterTags = ["work"], the summary tagged ["work", "x"] is kept. -/
theorem keepNote_keeps_iff_witness :
    keepNote "false" ["work"] noteW = true :=
  (keepNote_keeps_iff "false" ["work"] noteW).mpr
    ⟨Or.inl (by decide), Or.inr ⟨"work", by decide, by decide⟩⟩

/-- showNotesCut with a flag parsing to a nonnegative limit keeps exactly
the last min(limit, count) entries. -/
theorem showNotesCut_of_nonneg (flagN : String) (parsed : List Note)
    (limit : Int) (hp : atoi flagN = some limit) (h0 : 0 ≤ limit) :
    showNotesCut flagN parsed
      = some (parsed.drop (parsed.length - min limit.toNat parsed.length)) := by
  simp only [showNotesCut, hp]
  split_ifs with h1 h2 h3
  · have he : (((parsed.length : Int)) - (parsed.length : Int)).toNat
        = parsed.length - min limit.toNat parsed.length := by omega
    rw [he]
  · exfalso
    exact h2 ⟨by omega, by omega⟩
  · have he : (((parsed.length : Int)) - limit).toNat
        = parsed.length - min limit.toNat parsed.length := by omega
    rw [he]
  · exfalso
    exact h3 ⟨by omega, by omega⟩

/-- wNote builds a note with a given content and modification timestamp,
everything else blank. -/
def wNote (c : String) (ts : Int) : Note :=
  { content := c, tags := [], systemTags := [], deleted := 0
    key := "", modifyTimestamp := ts }

/-- C6: for a limit parsed from the flag with limit >= 0, showNotes sorts
ascending by modification timestamp (a permutation of the input, pairwise
nondecreasing), drops the notes with empty content, and keeps only the
last min(limit, remaining count) entries of what is left. -/
theorem showNotes_sort_drop_tail (notes : List Note) (flagN : String)
    (limit : Int) (hp : atoi flagN = some limit) (h0 : 0 ≤ limit) :
    showNotesKept flagN notes
      = some (((sortNotes notes).filter fun n => n.content ≠ "").drop
          (((sortNotes notes).filter fun n => n.content ≠ "").length
            - min limit.toNat
                ((sortNotes notes).filter fun n => n.content ≠ "").length))
    ∧ (sortNotes notes).Perm notes
    ∧ List.Sorted (fun a b : Note => a.modifyTimestamp ≤ b.modifyTimestamp)
        (sortNotes notes) := by
  have hne1 : flagN ≠ "-1" := by
    intro h
    rw [h] at hp
    have hm : atoi "-1" = some (-1) := by decide
    rw [hm] at hp
    have : (-1 : Int) = limit := by injection hp
    omega
  refine ⟨?_, List.perm_insertionSort _ _, ?_⟩
  · simp only [showNotesKept]
    by_cases hlen : ((sortNotes notes).filter fun n => n.content ≠ "").length = 0
    · rw [if_pos hlen]
      rw [List.length_eq_zero.mp hlen]
      simp
    · rw [if_neg hlen, if_pos hne1,
        showNotesCut_of_nonneg flagN _ limit hp h0]
  · haveI hto : IsTotal Note (fun a b => a.modifyTimestamp ≤ b.modifyTimestamp) :=
      ⟨fun a b => Int.le_total _ _⟩
    haveI htr : IsTrans Note (fun a b => a.modifyTimestamp ≤ b.modifyTimestamp) :=
      ⟨fun _ _ _ h1 h2 => le_trans h1 h2⟩
    exact List.sorted_insertionSort _ _

/-- C6 witness: the presenter theorem applied to notes with timestamps
100, 300, 200 and the limit flag "2": the output order is the 200 note
then the 300 note. -/
theorem showNotes_sort_drop_tail_witness :
    (atoi "2" = some 2 ∧ (0 : Int) ≤ 2)
    ∧ showNotesKept "2" [wNote "one" 100, wNote "three" 300, wNote "two" 200]
        = some [wNote "two" 200, wNote "three" 300] := by
  refine ⟨⟨by decide, by decide⟩, ?_⟩
  have h := (showNotes_sort_drop_tail
    [wNote "one" 100, wNote "three" 300, wNote "two" 200] "2" 2
    (by decide) (by decide)).1
  rw [h]
  decide

/-- C8 counterexample: with a single non-empty note and the limit flag
"-2" (a negative limit other than -1), the tail-cut index is 3 on a
one-element record list, the slice access parsed[3:] is out of bounds and
showNotes panics, modelled as none — so the presenter is neither total
nor keeps-all on this input, refuting the claim. -/
theorem showNotes_negative_limit_panics :
    showNotesKept "-2" [wNote "x" 100] = none := by decide

/-- C8 (amended): only the literal flag string "-1" is the unlimited
sentinel. For any other flag value that parses to a negative limit, the
tail-cut index count - limit exceeds the count of remaining records and
the slice access is out of bounds (a run-time panic, modelled none) —
except when no non-empty note remains, in which case the early empty
branch of showNotes returns before the cut is computed. -/
theorem showNotes_negative_limit_not_total (notes : List Note)
    (flagN : String) (limit : Int) (hp : atoi flagN = some limit)
    (hne : flagN ≠ "-1") (hneg : limit < 0) :
    showNotesKept flagN notes
      = if ((sortNotes notes).filter fun n => n.content ≠ "").length = 0
        then some [] else none := by
  simp only [showNotesKept]
  by_cases hlen : ((sortNotes notes).filter fun n => n.content ≠ "").length = 0
  · rw [if_pos hlen, if_pos hlen]
  · rw [if_neg hlen, if_neg hlen, if_pos hne]
    simp only [showNotesCut, hp]
    have hni : ¬((((sortNotes notes).filter fun n => n.content ≠ "").length : Int)
        < limit) := by omega
    rw [if_neg hni]
    have hcond : ¬(0 ≤ ((((sortNotes notes).filter fun n => n.content ≠ "").length : Int)
          - limit)
        ∧ ((((sortNotes notes).filter fun n => n.content ≠ "").length : Int) - limit)
          ≤ (((sortNotes notes).filter fun n => n.content ≠ "").length : Int)) := by
      intro hc
      omega
    rw [if_neg hcond]

/-- C8 witness: the amended theorem applied to the flag "-3" and a single
non-empty note, where the cut is out of bounds and the result is none. -/
theorem showNotes_negative_limit_not_total_witness :
    (atoi "-3" = some (-3) ∧ ("-3" : String) ≠ "-1" ∧ (-3 : Int) < 0)
    ∧ showNotesKept "-3" [wNote "y" 50] = none := by
  refine ⟨⟨by decide, by decide, by decide⟩, ?_⟩
  have h := showNotes_negative_limit_not_total [wNote "y" 50] "-3" (-3)
    (by decide) (by decide) (by decide)
  rw [h]
  decide

/-- On the two-page server, a call starting from the empty mark never
returns, whatever the fuel and the accumulator: every recursive call
passes the stale empty mark again, refetches page one, and sees its
non-empty continuation mark again. The full characterization: the call
consumes all its fuel, every request it sends carries length "100" and no
mark parameter, and no result is produced. -/
theorem getAllNotes_twoPage_stuck (fuel : Nat) :
    ∀ acc : List Note,
      getAllNotes twoPageServer "false" [] fuel acc ""
        = (List.replicate fuel ⟨"100", none⟩, none) := by
  induction fuel with
  | zero => intro acc; rfl
  | succ n ih =>
    intro acc
    rw [getAllNotes]
    have hsrv : twoPageServer "" = some ⟨2, [noteA], "m1"⟩ := rfl
    rw [hsrv]
    simp only []
    rw [ih (acc ++ filterPage "false" [] [noteA])]
    simp [List.replicate_succ]

/-- C1: the code does not return the union of the pages. On the concrete
two-page index with strictly advancing marks, getAllNotes (called as
listNotes calls it: empty accumulator, empty mark, no tag filter, deleted
excluded) produces no result at all for any fuel — the recursion at line
381 reuses its stale mark argument instead of the newly returned
continuation mark l.Mark, so it refetches page one forever instead of
returning each filtered item exactly once in page order. -/
theorem getAllNotes_two_pages_never_union (fuel : Nat) (acc : List Note) :
    (getAllNotes twoPageServer "false" [] fuel acc "").2 = none := by
  rw [getAllNotes_twoPage_stuck fuel acc]

/-- C2: every index request getAllNotes sends on the two-page server does
carry length "100", but no request ever carries a mark parameter — in
particular never the newly returned continuation mark "m1" — and the
recursion never terminates: the recursive call at line 381 passes the
stale mark argument, not l.Mark. -/
theorem getAllNotes_never_sends_new_mark (fuel : Nat) (acc : List Note) :
    ((getAllNotes twoPageServer "false" [] fuel acc "").1.all
        fun r => r.length == "100" && r.mark == none) = true
    ∧ (getAllNotes twoPageServer "false" [] fuel acc "").2 = none := by
  rw [getAllNotes_twoPage_stuck fuel acc]
  constructor
  · rw [List.all_eq_true]
    intro r hr
    rw [List.eq_of_mem_replicate hr]
    rfl
  · rfl

end GoNote
